import Mathlib

/-
Verification of the kernel_comm character-device module (khello / khello2).

The embedding below translates the C sources directly:
- DevState models the module globals g_data (32-byte buffer), g_data_size and
  g_lock of src/khello2/khello.c (src/khello/khello.c is identical except that
  it has no g_lock flag and no poll/mmap handlers).
- dev_write, dev_read, dev_poll, dev_mmap follow the corresponding handlers
  statement by statement; external effects (copy_to_user residual,
  remap_pfn_range success, the uninitialized stack value of poll's result
  variable) are explicit parameters.
- hello_init models the khello2 initialization with the success/failure of
  each external call as a parameter, recording which resources are acquired
  and which the cleanup ladder releases.
- A micro-step interleaving machine (CState/cstep/crun) models two threads
  running the mutex-guarded critical section of dev_write concurrently.
-/

namespace KernelComm

/-- State of the module globals of khello2: the 32-byte buffer g_data
(modelled as a function from index to byte value; only indices 0..31 are
meaningful), g_data_size, and the g_lock busy flag. -/
structure DevState where
  data : Nat → Nat
  dataSize : Nat
  glock : Nat

/-- dev_write of khello2 (lines 225-238; identical in khello lines 159-170):
truncates p_size to 31, then under the mutex performs
memcpy(g_data, p_buf, p_size), g_data[p_size] = 0, g_data_size = p_size,
and returns the truncated p_size.  memcpy is an unconditional copy: the
handler has no failure branch.  g_lock is set to 1 and back to 0 inside the
critical section, so it is 0 at return. -/
def dev_write (p_buf : Nat → Nat) (p_size : Nat) (s : DevState) : DevState × Nat :=
  let sz := if p_size > 31 then 31 else p_size
  let data1 : Nat → Nat := fun i => if i < sz then p_buf i else s.data i
  let data2 : Nat → Nat := fun i => if i = sz then 0 else data1 i
  ({ data := data2, dataSize := sz, glock := 0 }, sz)

/-- dev_read of khello2 (lines 207-221; identical in khello lines 143-155
minus g_lock): under the mutex it calls
result = copy_to_user(p_buf, g_data, g_data_size) and returns result.
copy_to_user returns the number of bytes it could NOT copy (the residual,
an environment parameter here) and copies the first
g_data_size - residual bytes into the destination.  The handler returns
the residual itself, and never touches g_data or g_data_size. -/
def dev_read (s : DevState) (dest : Nat → Nat) (residual : Nat) :
    DevState × (Nat → Nat) × Nat :=
  let copied := s.dataSize - residual
  let dest' : Nat → Nat := fun i => if i < copied then s.data i else dest i
  ({ s with glock := 0 }, dest', residual)

/-- POLLIN bit (data available for reading). -/
def POLLIN : Nat := 1

/-- POLLOUT bit (writing will not block). -/
def POLLOUT : Nat := 4

/-- dev_poll of khello2 (lines 242-252).  The local variable result is
declared without an initializer; the parameter uninit models its
indeterminate initial value.  The two conditions each ASSIGN result
(they do not OR bits into it), so the second assignment overwrites the
first, and when neither condition holds the uninitialized value is
returned. -/
def dev_poll (s : DevState) (uninit : Nat) : Nat :=
  let r0 := uninit
  let r1 := if s.dataSize > 0 then POLLIN else r0
  let r2 := if s.glock = 0 then POLLOUT else r1
  r2

/-- Outcome of dev_mmap, mirroring its three exit paths. -/
inductive MmapOutcome where
  | sizeExceeded
  | remapFailed
  | accepted
deriving DecidableEq

/-- dev_mmap of khello2 (lines 256-274): computes the requested size
vm_end - vm_start, rejects with -EAGAIN if it exceeds PAGE_SIZE,
otherwise attempts remap_pfn_range (an external call whose success is
the parameter remapOk); on remap failure returns -EAGAIN, on success it
installs vm_ops and calls khello_vma_open (the on-open callback) and
returns 0. -/
def dev_mmap (pageSize : Nat) (vmSize : Nat) (remapOk : Bool) : MmapOutcome :=
  if vmSize > pageSize then MmapOutcome.sizeExceeded
  else if remapOk then MmapOutcome.accepted
  else MmapOutcome.remapFailed

/-- Return value of dev_mmap: 0 on acceptance, -EAGAIN (= -11) on either
rejection path. -/
def mmapRetVal : MmapOutcome → Int
  | MmapOutcome.accepted => 0
  | MmapOutcome.sizeExceeded => -11
  | MmapOutcome.remapFailed => -11

/-- The khello_vma_open on-open callback runs exactly on the accepted path
of dev_mmap (it is called right after vm_ops is installed). -/
def onOpenInvoked : MmapOutcome → Bool
  | MmapOutcome.accepted => true
  | MmapOutcome.sizeExceeded => false
  | MmapOutcome.remapFailed => false

/-- Buffer state right after hello_init: memset(g_data, 0, 32) and
g_data_size = 0 (khello2 lines 107-108). -/
def initDevState : DevState := { data := fun _ => 0, dataSize := 0, glock := 0 }

/-- The ByteBuffer invariant: the stored length stays strictly below the
32-byte capacity. -/
def BufInv (s : DevState) : Prop := s.dataSize < 32

/-- One device operation, with the environment parameters each handler
needs. -/
inductive DevOp where
  | doWrite (p : Nat → Nat) (n : Nat)
  | doRead (dest : Nat → Nat) (residual : Nat)
  | doPoll (uninit : Nat)
  | doMmap (pageSize vmSize : Nat) (remapOk : Bool)

/-- Effect of one operation on the buffer state.  dev_poll only reads the
globals and dev_mmap touches only the separately allocated page g_data2
and the caller vma, so neither stores to g_data, g_data_size or g_lock:
their buffer-state effect is the identity. -/
def applyOp : DevOp → DevState → DevState
  | DevOp.doWrite p n, s => (dev_write p n s).1
  | DevOp.doRead d r, s => (dev_read s d r).1
  | DevOp.doPoll _, s => s
  | DevOp.doMmap _ _ _, s => s

/-- The bytes of the 5-byte payload used in concrete scenarios
(the string hello). -/
def helloBytes : Nat → Nat := fun i => List.getD [104, 101, 108, 108, 111] i 0

/-- The resources hello_init of khello2 acquires: the mutex (mutex_init),
the device-number region (alloc_chrdev_region), the character device
(cdev_add), the device class (class_create), the device itself
(device_create) and the page (kmalloc). -/
inductive Resource where
  | mutex
  | chrdevRegion
  | cdev
  | devClass
  | device
  | page
deriving DecidableEq

/-- Result of running hello_init: the returned value, the resources the
successful calls acquired, in order, and the resources the cleanup code
at do_exit released, in order. -/
structure InitTrace where
  result : Int
  acquired : List Resource
  released : List Resource

/-- The cleanup ladder at do_exit of khello2 hello_init (lines 154-168):
it runs only when result < 0; it then walks progress down, calling
class_destroy when progress is at least 2, cdev_del when it has reached 1,
unregister_chrdev_region when it has reached 0, and finally
mutex_destroy.  Note it never calls device_destroy. -/
def initCleanup (result : Int) (progress : Nat) : List Resource :=
  if result < 0 then
    let r1 : List Resource := if progress ≥ 2 then [Resource.devClass] else []
    let p1 := if progress ≥ 2 then 1 else progress
    let r2 : List Resource := if p1 = 1 then [Resource.cdev] else []
    let p2 := if p1 = 1 then 0 else p1
    let r3 : List Resource := if p2 = 0 then [Resource.chrdevRegion] else []
    r1 ++ r2 ++ r3 ++ [Resource.mutex]
  else []

/-- hello_init of khello2 (lines 104-171), with the return values of the
fallible external calls as parameters: chrdevRet and cdevRet are the
integer results of alloc_chrdev_region and cdev_add (negative means
failure), and classOk, deviceOk, kmallocOk tell whether class_create,
device_create and kmalloc succeed (these three are checked through
IS_ERR / NULL and, crucially, are never assigned into the local result
variable, which therefore keeps the value cdevRet left in it). -/
def hello_init (chrdevRet cdevRet : Int) (classOk deviceOk kmallocOk : Bool) :
    InitTrace :=
  let acq0 : List Resource := [Resource.mutex]
  if chrdevRet < 0 then
    { result := chrdevRet, acquired := acq0, released := initCleanup chrdevRet 0 }
  else
    let acq1 := acq0 ++ [Resource.chrdevRegion]
    if cdevRet < 0 then
      { result := cdevRet, acquired := acq1, released := initCleanup cdevRet 0 }
    else
      let acq2 := acq1 ++ [Resource.cdev]
      if classOk = false then
        { result := cdevRet, acquired := acq2, released := initCleanup cdevRet 1 }
      else
        let acq3 := acq2 ++ [Resource.devClass]
        if deviceOk = false then
          { result := cdevRet, acquired := acq3, released := initCleanup cdevRet 2 }
        else
          let acq4 := acq3 ++ [Resource.device]
          if kmallocOk = false then
            { result := cdevRet, acquired := acq4, released := initCleanup cdevRet 3 }
          else
            { result := 0, acquired := acq4 ++ [Resource.page], released := [] }

/-- The buffer part of the module globals as the concurrency model sees it:
the g_data bytes and g_data_size. -/
structure Buf where
  data : Nat → Nat
  len : Nat

/-- The buffer part of a DevState. -/
def bufOf (s : DevState) : Buf := { data := s.data, len := s.dataSize }

/-- A DevState with the given buffer and a free g_lock. -/
def devOf (b : Buf) : DevState := { data := b.data, dataSize := b.len, glock := 0 }

/-- One atomic store of the dev_write critical section: the i-th iteration
of memcpy stores payload byte i into g_data[i]. -/
def copyAct (p : Nat → Nat) (i : Nat) : Buf → Buf :=
  fun b => { b with data := fun j => if j = i then p i else b.data j }

/-- One atomic store of the dev_write critical section: g_data[n] = 0. -/
def nullAct (n : Nat) : Buf → Buf :=
  fun b => { b with data := fun j => if j = n then 0 else b.data j }

/-- One atomic store of the dev_write critical section: g_data_size = n. -/
def lenAct (n : Nat) : Buf → Buf :=
  fun b => { b with len := n }

/-- The body of the dev_write critical section for a payload already
truncated to n bytes, as the list of its atomic stores in program order:
the n memcpy byte stores, the null store, the length store. -/
def writeActs (p : Nat → Nat) (n : Nat) : List (Buf → Buf) :=
  (List.range n).map (copyAct p) ++ [nullAct n, lenAct n]

/-- The buffer after the first k actions of a critical-section body. -/
def applyActs (acts : List (Buf → Buf)) (k : Nat) (b : Buf) : Buf :=
  (acts.take k).foldl (fun x f => f x) b

/-- The buffer after a whole critical-section body. -/
def seqFull (acts : List (Buf → Buf)) (b : Buf) : Buf :=
  acts.foldl (fun x f => f x) b

/-- The buffer dev_write leaves for a payload truncated to n bytes. -/
def writeResult (p : Nat → Nat) (n : Nat) (b : Buf) : Buf :=
  { data := fun i => if i = n then 0 else if i < n then p i else b.data i, len := n }

/-- Global state of two threads A and B running mutex-guarded critical
sections concurrently: the shared buffer, the mutex holder (none = free;
some false = A; some true = B), and each thread's program counter.
Thread t with body acts has pc 0 at mutex_lock, pc in [1, acts.length]
about to run action pc - 1, pc = acts.length + 1 at mutex_unlock, and
pc = acts.length + 2 when it has returned. -/
structure CState where
  buf : Buf
  lock : Option Bool
  pcA : Nat
  pcB : Nat

/-- One scheduler step of thread A: mutex_lock blocks (is a no-op) while
the mutex is held, critical-section actions and mutex_unlock run only
while A holds the mutex, and a finished thread does nothing. -/
def cstepA (actsA : List (Buf → Buf)) (s : CState) : CState :=
  if s.pcA = 0 then
    match s.lock with
    | none => { s with lock := some false, pcA := 1 }
    | some _ => s
  else if s.pcA ≤ actsA.length then
    if s.lock = some false then
      { s with buf := (actsA[s.pcA - 1]?.getD id) s.buf, pcA := s.pcA + 1 }
    else s
  else if s.pcA = actsA.length + 1 then
    if s.lock = some false then { s with lock := none, pcA := s.pcA + 1 } else s
  else s

/-- One scheduler step of thread B; same rules as for thread A. -/
def cstepB (actsB : List (Buf → Buf)) (s : CState) : CState :=
  if s.pcB = 0 then
    match s.lock with
    | none => { s with lock := some true, pcB := 1 }
    | some _ => s
  else if s.pcB ≤ actsB.length then
    if s.lock = some true then
      { s with buf := (actsB[s.pcB - 1]?.getD id) s.buf, pcB := s.pcB + 1 }
    else s
  else if s.pcB = actsB.length + 1 then
    if s.lock = some true then { s with lock := none, pcB := s.pcB + 1 } else s
  else s

/-- One scheduler step: the scheduler picks thread t. -/
def cstep (actsA actsB : List (Buf → Buf)) (t : Bool) (s : CState) : CState :=
  match t with
  | false => cstepA actsA s
  | true => cstepB actsB s

/-- Run a whole schedule (an arbitrary interleaving of the two threads). -/
def crun (actsA actsB : List (Buf → Buf)) (sch : List Bool) (s : CState) : CState :=
  sch.foldl (fun x t => cstep actsA actsB t x) s

/-- Initial concurrent state: both threads before mutex_lock, mutex free. -/
def initCState (b0 : Buf) : CState :=
  { buf := b0, lock := none, pcA := 0, pcB := 0 }

/-- Thread with body length L is inside the mutex-guarded region (between
its mutex_lock and the completion of its mutex_unlock). -/
def inCS (L : Nat) (pc : Nat) : Prop := 1 ≤ pc ∧ pc ≤ L + 1

/-- Reachability invariant of the two-thread machine: at every moment
either nobody has entered, or exactly one thread is inside the critical
section with the buffer reflecting the prefix of its body it has executed
over the buffer left by the threads that already finished, or threads are
done in one of the two serialization orders. -/
def Inv (actsA actsB : List (Buf → Buf)) (b0 : Buf) (s : CState) : Prop :=
  (s.pcA = 0 ∧ s.pcB = 0 ∧ s.lock = none ∧ s.buf = b0)
  ∨ (1 ≤ s.pcA ∧ s.pcA ≤ actsA.length + 1 ∧ s.pcB = 0 ∧ s.lock = some false
      ∧ s.buf = applyActs actsA (s.pcA - 1) b0)
  ∨ (1 ≤ s.pcB ∧ s.pcB ≤ actsB.length + 1 ∧ s.pcA = 0 ∧ s.lock = some true
      ∧ s.buf = applyActs actsB (s.pcB - 1) b0)
  ∨ (s.pcA = actsA.length + 2 ∧ s.pcB = 0 ∧ s.lock = none ∧ s.buf = seqFull actsA b0)
  ∨ (s.pcB = actsB.length + 2 ∧ s.pcA = 0 ∧ s.lock = none ∧ s.buf = seqFull actsB b0)
  ∨ (s.pcA = actsA.length + 2 ∧ 1 ≤ s.pcB ∧ s.pcB ≤ actsB.length + 1
      ∧ s.lock = some true ∧ s.buf = applyActs actsB (s.pcB - 1) (seqFull actsA b0))
  ∨ (s.pcB = actsB.length + 2 ∧ 1 ≤ s.pcA ∧ s.pcA ≤ actsA.length + 1
      ∧ s.lock = some false ∧ s.buf = applyActs actsA (s.pcA - 1) (seqFull actsB b0))
  ∨ (s.pcA = actsA.length + 2 ∧ s.pcB = actsB.length + 2 ∧ s.lock = none
      ∧ s.buf = seqFull actsB (seqFull actsA b0))
  ∨ (s.pcA = actsA.length + 2 ∧ s.pcB = actsB.length + 2 ∧ s.lock = none
      ∧ s.buf = seqFull actsA (seqFull actsB b0))

/-- Claim C1: for every payload and every requested length, dev_write stores
exactly actual = min(requested, 31) bytes of the payload into data[0..actual),
writes a null byte at data[actual], sets the stored length to actual, and
returns actual. -/
theorem dev_write_stores_min_bytes (p : Nat → Nat) (n : Nat) (s : DevState) :
    (dev_write p n s).2 = min n 31
    ∧ (∀ i, i < min n 31 → (dev_write p n s).1.data i = p i)
    ∧ (dev_write p n s).1.data (min n 31) = 0
    ∧ (dev_write p n s).1.dataSize = min n 31 := by
  have hsz : (if n > 31 then 31 else n) = min n 31 := by split <;> omega
  refine ⟨by simp [dev_write, hsz], ?_, by simp [dev_write, hsz], by simp [dev_write, hsz]⟩
  intro i hi
  have h1 : ¬ (i = min n 31) := by omega
  show (if i = (if n > 31 then 31 else n) then 0
        else if i < (if n > 31 then 31 else n) then p i else s.data i) = p i
  rw [hsz, if_neg h1, if_pos hi]

/-- Witness for C1: a 40-byte request from the fresh state stores 31 bytes,
byte 5 of the stored data is payload byte 5, and byte 31 is the null. -/
theorem dev_write_stores_min_bytes_w :
    (dev_write (fun i => i + 1) 40 initDevState).2 = min 40 31
    ∧ (dev_write (fun i => i + 1) 40 initDevState).1.data 5 = 6
    ∧ (dev_write (fun i => i + 1) 40 initDevState).1.data (min 40 31) = 0
    ∧ (dev_write (fun i => i + 1) 40 initDevState).1.dataSize = min 40 31 := by
  obtain ⟨h1, h2, h3, h4⟩ := dev_write_stores_min_bytes (fun i => i + 1) 40 initDevState
  exact ⟨h1, h2 5 (by decide), h3, h4⟩

/-- Claim C9: a read leaves the stored bytes and the stored length unchanged,
whatever the copy residual (full success or partial failure). -/
theorem dev_read_preserves_buffer (s : DevState) (dest : Nat → Nat) (r : Nat) :
    (dev_read s dest r).1.data = s.data ∧ (dev_read s dest r).1.dataSize = s.dataSize :=
  ⟨rfl, rfl⟩

/-- Claim C10: dev_write leaves every buffer byte beyond the null terminator
(every position above min(requested, 31)) unchanged. -/
theorem dev_write_frame (p : Nat → Nat) (n : Nat) (s : DevState) (i : Nat)
    (h : min n 31 < i) : (dev_write p n s).1.data i = s.data i := by
  have hsz : (if n > 31 then 31 else n) = min n 31 := by split <;> omega
  have h1 : ¬ (i = min n 31) := by omega
  have h2 : ¬ (i < min n 31) := by omega
  show (if i = (if n > 31 then 31 else n) then 0
        else if i < (if n > 31 then 31 else n) then p i else s.data i) = s.data i
  rw [hsz, if_neg h1, if_neg h2]

/-- Witness for C10: a 5-byte write leaves byte 32 at its previous value. -/
theorem dev_write_frame_w :
    min 5 31 < 32
    ∧ (dev_write (fun _ => 9) 5 { data := fun _ => 7, dataSize := 3, glock := 0 }).1.data 32
        = ({ data := fun _ => 7, dataSize := 3, glock := 0 } : DevState).data 32 :=
  ⟨by decide, dev_write_frame (fun _ => 9) 5 _ 32 (by decide)⟩

/-- Claim C4: dev_mmap rejects any request larger than the page through the
size-check branch (returning -EAGAIN before attempting any remap), and
accepts any request of at most one page whenever the collaborator remap
succeeds, invoking the on-open callback and returning 0. -/
theorem dev_mmap_size_gate (pageSize vmSize : Nat) (remapOk : Bool) :
    (pageSize < vmSize →
      dev_mmap pageSize vmSize remapOk = MmapOutcome.sizeExceeded
      ∧ mmapRetVal (dev_mmap pageSize vmSize remapOk) = -11)
    ∧ (vmSize ≤ pageSize → remapOk = true →
      dev_mmap pageSize vmSize remapOk = MmapOutcome.accepted
      ∧ onOpenInvoked (dev_mmap pageSize vmSize remapOk) = true
      ∧ mmapRetVal (dev_mmap pageSize vmSize remapOk) = 0) := by
  constructor
  · intro h
    simp [dev_mmap, h, mmapRetVal]
  · intro h hok
    have hn : ¬ (vmSize > pageSize) := by omega
    simp [dev_mmap, hn, hok, mmapRetVal, onOpenInvoked]

/-- Witness for C4 with 4096-byte pages: a 4096-byte request is accepted,
a 4097-byte request is rejected by the size check. -/
theorem dev_mmap_size_gate_w :
    dev_mmap 4096 4097 true = MmapOutcome.sizeExceeded
    ∧ dev_mmap 4096 4096 true = MmapOutcome.accepted :=
  ⟨((dev_mmap_size_gate 4096 4097 true).1 (by decide)).1,
   ((dev_mmap_size_gate 4096 4096 true).2 (by decide) rfl).1⟩

/-- Claim C5: the invariant that the stored length stays below the 32-byte
capacity holds in the state hello_init creates and is preserved by every
operation, and the byte at the stored length is 0 after any write. -/
theorem buffer_invariant_preserved :
    BufInv initDevState
    ∧ (∀ op s, BufInv s → BufInv (applyOp op s))
    ∧ (∀ p n s, (dev_write p n s).1.data ((dev_write p n s).1.dataSize) = 0) := by
  refine ⟨by simp [BufInv, initDevState], ?_, ?_⟩
  · intro op s hs
    cases op with
    | doWrite p n =>
        simp only [applyOp, dev_write, BufInv]
        split <;> omega
    | doRead d r => exact hs
    | doPoll u => exact hs
    | doMmap a b c => exact hs
  · intro p n s
    simp [dev_write]

/-- Witness for C5: the fresh state satisfies the invariant, a 40-byte write
from it preserves the invariant, and after writing the 5 hello bytes the
byte at the stored length is 0. -/
theorem buffer_invariant_preserved_w :
    BufInv initDevState
    ∧ BufInv (applyOp (DevOp.doWrite (fun _ => 1) 40) initDevState)
    ∧ (dev_write helloBytes 5 initDevState).1.data
        ((dev_write helloBytes 5 initDevState).1.dataSize) = 0 := by
  obtain ⟨h1, h2, h3⟩ := buffer_invariant_preserved
  exact ⟨h1, h2 _ initDevState h1, h3 helloBytes 5 initDevState⟩

/-- Claim C2, code behavior at the claimed scenario: after a write of the
5 hello bytes, a fully successful read (residual 0) places all 5 stored
bytes in the destination, yet dev_read returns the copy_to_user residual
0 - not the 5 bytes that were transferred. -/
theorem dev_read_returns_residual :
    ((dev_write helloBytes 5 initDevState).1).dataSize = 5
    ∧ (dev_read (dev_write helloBytes 5 initDevState).1 (fun _ => 0) 0).2.1 0 = 104
    ∧ (dev_read (dev_write helloBytes 5 initDevState).1 (fun _ => 0) 0).2.1 4 = 111
    ∧ (dev_read (dev_write helloBytes 5 initDevState).1 (fun _ => 0) 0).2.2 = 0
    ∧ (dev_read (dev_write helloBytes 5 initDevState).1 (fun _ => 0) 0).2.2
        ≠ ((dev_write helloBytes 5 initDevState).1).dataSize := by
  decide

/-- Claim C3, code behavior: with 5 bytes stored and the lock free, dev_poll
returns only POLLOUT - the readable flag set by the first assignment is
overwritten by the second - and with no data stored and the lock held,
dev_poll returns the uninitialized stack value of its result variable. -/
theorem dev_poll_overwrites_result :
    dev_poll { data := fun _ => 0, dataSize := 5, glock := 0 } 0 = POLLOUT
    ∧ dev_poll { data := fun _ => 0, dataSize := 5, glock := 0 } 0 ≠ POLLIN + POLLOUT
    ∧ dev_poll { data := fun _ => 0, dataSize := 0, glock := 1 } 123 = 123 := by
  decide

/-- Claim C6, code behavior: dev_write copies with memcpy and has no failure
branch at all: for every payload, requested length and state it returns the
nonnegative value min(requested, 31) and never a fault code. -/
theorem dev_write_has_no_fault_path (p : Nat → Nat) (n : Nat) (s : DevState) :
    ((dev_write p n s).2 : Int) = ((min n 31 : Nat) : Int)
    ∧ (0 : Int) ≤ ((dev_write p n s).2 : Int) := by
  have hsz : (if n > 31 then 31 else n) = min n 31 := by split <;> omega
  exact ⟨by simp [dev_write, hsz], Int.natCast_nonneg _⟩

/-- Claim C7, code behavior: when class_create fails after
alloc_chrdev_region and cdev_add succeeded (each returning 0), hello_init
of khello2 returns 0 - reporting success - and releases nothing: the local
result variable still holds the 0 left by cdev_add, so the cleanup ladder
at do_exit is skipped and the device-number region and the character
device both leak. -/
theorem hello_init_class_failure_leaks :
    (hello_init 0 0 false true true).result = 0
    ∧ (hello_init 0 0 false true true).acquired
        = [Resource.mutex, Resource.chrdevRegion, Resource.cdev]
    ∧ (hello_init 0 0 false true true).released = [] := by
  decide

/-- Applying one more critical-section action applies the next action of
the body to the buffer so far. -/
theorem applyActs_succ (acts : List (Buf → Buf)) (k : Nat) (b : Buf) (h : k < acts.length) :
    applyActs acts (k + 1) b = (acts[k]?.getD id) (applyActs acts k b) := by
  have hg : acts[k]? = some acts[k] := List.getElem?_eq_getElem h
  unfold applyActs
  rw [List.take_succ, hg, List.foldl_append]
  rfl

/-- Applying the whole body is running it to the end. -/
theorem applyActs_len (acts : List (Buf → Buf)) (b : Buf) :
    applyActs acts acts.length b = seqFull acts b := by
  unfold applyActs seqFull
  rw [List.take_length]

/-- Shape of a step of A at mutex_lock with the mutex free. -/
theorem cstepA_acquire (A : List (Buf → Buf)) (s : CState)
    (h0 : s.pcA = 0) (hl : s.lock = none) :
    cstepA A s = { s with lock := some false, pcA := 1 } := by
  simp [cstepA, h0, hl]

/-- Shape of a step of A at mutex_lock while the mutex is held. -/
theorem cstepA_blocked (A : List (Buf → Buf)) (s : CState) (b : Bool)
    (h0 : s.pcA = 0) (hl : s.lock = some b) :
    cstepA A s = s := by
  simp [cstepA, h0, hl]

/-- Shape of a step of A inside the critical-section body. -/
theorem cstepA_body (A : List (Buf → Buf)) (s : CState)
    (h1 : 1 ≤ s.pcA) (h2 : s.pcA ≤ A.length) (hl : s.lock = some false) :
    cstepA A s = { s with buf := (A[s.pcA - 1]?.getD id) s.buf, pcA := s.pcA + 1 } := by
  have h0 : ¬ s.pcA = 0 := by omega
  simp [cstepA, h0, h2, hl]

/-- Shape of a step of A at mutex_unlock. -/
theorem cstepA_unlock (A : List (Buf → Buf)) (s : CState)
    (h1 : s.pcA = A.length + 1) (hl : s.lock = some false) :
    cstepA A s = { s with lock := none, pcA := s.pcA + 1 } := by
  have h0 : ¬ s.pcA = 0 := by omega
  have h2 : ¬ s.pcA ≤ A.length := by omega
  simp [cstepA, h0, h2, h1, hl]

/-- A finished thread A does nothing. -/
theorem cstepA_done (A : List (Buf → Buf)) (s : CState)
    (h1 : A.length + 2 ≤ s.pcA) :
    cstepA A s = s := by
  have h0 : ¬ s.pcA = 0 := by omega
  have h2 : ¬ s.pcA ≤ A.length := by omega
  have h3 : ¬ s.pcA = A.length + 1 := by omega
  simp [cstepA, h0, h2, h3]

/-- Shape of a step of B at mutex_lock with the mutex free. -/
theorem cstepB_acquire (B : List (Buf → Buf)) (s : CState)
    (h0 : s.pcB = 0) (hl : s.lock = none) :
    cstepB B s = { s with lock := some true, pcB := 1 } := by
  simp [cstepB, h0, hl]

/-- Shape of a step of B at mutex_lock while the mutex is held. -/
theorem cstepB_blocked (B : List (Buf → Buf)) (s : CState) (b : Bool)
    (h0 : s.pcB = 0) (hl : s.lock = some b) :
    cstepB B s = s := by
  simp [cstepB, h0, hl]

/-- Shape of a step of B inside the critical-section body. -/
theorem cstepB_body (B : List (Buf → Buf)) (s : CState)
    (h1 : 1 ≤ s.pcB) (h2 : s.pcB ≤ B.length) (hl : s.lock = some true) :
    cstepB B s = { s with buf := (B[s.pcB - 1]?.getD id) s.buf, pcB := s.pcB + 1 } := by
  have h0 : ¬ s.pcB = 0 := by omega
  simp [cstepB, h0, h2, hl]

/-- Shape of a step of B at mutex_unlock. -/
theorem cstepB_unlock (B : List (Buf → Buf)) (s : CState)
    (h1 : s.pcB = B.length + 1) (hl : s.lock = some true) :
    cstepB B s = { s with lock := none, pcB := s.pcB + 1 } := by
  have h0 : ¬ s.pcB = 0 := by omega
  have h2 : ¬ s.pcB ≤ B.length := by omega
  simp [cstepB, h0, h2, h1, hl]

/-- A finished thread B does nothing. -/
theorem cstepB_done (B : List (Buf → Buf)) (s : CState)
    (h1 : B.length + 2 ≤ s.pcB) :
    cstepB B s = s := by
  have h0 : ¬ s.pcB = 0 := by omega
  have h2 : ¬ s.pcB ≤ B.length := by omega
  have h3 : ¬ s.pcB = B.length + 1 := by omega
  simp [cstepB, h0, h2, h3]

/-- The reachability invariant is preserved by a step of thread A. -/
theorem inv_cstepA (A B : List (Buf → Buf)) (b0 : Buf) (s : CState)
    (h : Inv A B b0 s) : Inv A B b0 (cstepA A s) := by
  rcases h with ⟨ha, hb, hl, hbuf⟩ | ⟨h1, h2, hb, hl, hbuf⟩ | ⟨h1, h2, ha, hl, hbuf⟩
    | ⟨ha, hb, hl, hbuf⟩ | ⟨hb, ha, hl, hbuf⟩ | ⟨ha, h1, h2, hl, hbuf⟩
    | ⟨hb, h1, h2, hl, hbuf⟩ | ⟨ha, hb, hl, hbuf⟩ | ⟨ha, hb, hl, hbuf⟩
  · rw [cstepA_acquire A s ha hl]
    right; left
    refine ⟨Nat.le_refl 1, ?_, hb, rfl, hbuf⟩
    show 1 ≤ A.length + 1
    omega
  · by_cases hc : s.pcA ≤ A.length
    · rw [cstepA_body A s h1 hc hl]
      right; left
      refine ⟨?_, ?_, hb, hl, ?_⟩
      · show 1 ≤ s.pcA + 1
        omega
      · show s.pcA + 1 ≤ A.length + 1
        omega
      · show (A[s.pcA - 1]?.getD id) s.buf = applyActs A (s.pcA + 1 - 1) b0
        rw [hbuf, show s.pcA + 1 - 1 = (s.pcA - 1) + 1 from by omega,
          applyActs_succ A (s.pcA - 1) b0 (by omega)]
    · have hpc : s.pcA = A.length + 1 := by omega
      rw [cstepA_unlock A s hpc hl]
      right; right; right; left
      refine ⟨?_, hb, rfl, ?_⟩
      · show s.pcA + 1 = A.length + 2
        omega
      · show s.buf = seqFull A b0
        rw [hbuf, hpc, show A.length + 1 - 1 = A.length from by omega, applyActs_len]
  · rw [cstepA_blocked A s true ha hl]
    right; right; left
    exact ⟨h1, h2, ha, hl, hbuf⟩
  · rw [cstepA_done A s (by omega)]
    right; right; right; left
    exact ⟨ha, hb, hl, hbuf⟩
  · rw [cstepA_acquire A s ha hl]
    right; right; right; right; right; right; left
    refine ⟨hb, Nat.le_refl 1, ?_, rfl, hbuf⟩
    show 1 ≤ A.length + 1
    omega
  · rw [cstepA_done A s (by omega)]
    right; right; right; right; right; left
    exact ⟨ha, h1, h2, hl, hbuf⟩
  · by_cases hc : s.pcA ≤ A.length
    · rw [cstepA_body A s h1 hc hl]
      right; right; right; right; right; right; left
      refine ⟨hb, ?_, ?_, hl, ?_⟩
      · show 1 ≤ s.pcA + 1
        omega
      · show s.pcA + 1 ≤ A.length + 1
        omega
      · show (A[s.pcA - 1]?.getD id) s.buf = applyActs A (s.pcA + 1 - 1) (seqFull B b0)
        rw [hbuf, show s.pcA + 1 - 1 = (s.pcA - 1) + 1 from by omega,
          applyActs_succ A (s.pcA - 1) (seqFull B b0) (by omega)]
    · have hpc : s.pcA = A.length + 1 := by omega
      rw [cstepA_unlock A s hpc hl]
      right; right; right; right; right; right; right; right
      refine ⟨?_, hb, rfl, ?_⟩
      · show s.pcA + 1 = A.length + 2
        omega
      · show s.buf = seqFull A (seqFull B b0)
        rw [hbuf, hpc, show A.length + 1 - 1 = A.length from by omega, applyActs_len]
  · rw [cstepA_done A s (by omega)]
    right; right; right; right; right; right; right; left
    exact ⟨ha, hb, hl, hbuf⟩
  · rw [cstepA_done A s (by omega)]
    right; right; right; right; right; right; right; right
    exact ⟨ha, hb, hl, hbuf⟩

/-- The reachability invariant is preserved by a step of thread B. -/
theorem inv_cstepB (A B : List (Buf → Buf)) (b0 : Buf) (s : CState)
    (h : Inv A B b0 s) : Inv A B b0 (cstepB B s) := by
  rcases h with ⟨ha, hb, hl, hbuf⟩ | ⟨h1, h2, hb, hl, hbuf⟩ | ⟨h1, h2, ha, hl, hbuf⟩
    | ⟨ha, hb, hl, hbuf⟩ | ⟨hb, ha, hl, hbuf⟩ | ⟨ha, h1, h2, hl, hbuf⟩
    | ⟨hb, h1, h2, hl, hbuf⟩ | ⟨ha, hb, hl, hbuf⟩ | ⟨ha, hb, hl, hbuf⟩
  · rw [cstepB_acquire B s hb hl]
    right; right; left
    refine ⟨Nat.le_refl 1, ?_, ha, rfl, hbuf⟩
    show 1 ≤ B.length + 1
    omega
  · rw [cstepB_blocked B s false hb hl]
    right; left
    exact ⟨h1, h2, hb, hl, hbuf⟩
  · by_cases hc : s.pcB ≤ B.length
    · rw [cstepB_body B s h1 hc hl]
      right; right; left
      refine ⟨?_, ?_, ha, hl, ?_⟩
      · show 1 ≤ s.pcB + 1
        omega
      · show s.pcB + 1 ≤ B.length + 1
        omega
      · show (B[s.pcB - 1]?.getD id) s.buf = applyActs B (s.pcB + 1 - 1) b0
        rw [hbuf, show s.pcB + 1 - 1 = (s.pcB - 1) + 1 from by omega,
          applyActs_succ B (s.pcB - 1) b0 (by omega)]
    · have hpc : s.pcB = B.length + 1 := by omega
      rw [cstepB_unlock B s hpc hl]
      right; right; right; right; left
      refine ⟨?_, ha, rfl, ?_⟩
      · show s.pcB + 1 = B.length + 2
        omega
      · show s.buf = seqFull B b0
        rw [hbuf, hpc, show B.length + 1 - 1 = B.length from by omega, applyActs_len]
  · rw [cstepB_acquire B s hb hl]
    right; right; right; right; right; left
    refine ⟨ha, Nat.le_refl 1, ?_, rfl, hbuf⟩
    show 1 ≤ B.length + 1
    omega
  · rw [cstepB_done B s (by omega)]
    right; right; right; right; left
    exact ⟨hb, ha, hl, hbuf⟩
  · by_cases hc : s.pcB ≤ B.length
    · rw [cstepB_body B s h1 hc hl]
      right; right; right; right; right; left
      refine ⟨ha, ?_, ?_, hl, ?_⟩
      · show 1 ≤ s.pcB + 1
        omega
      · show s.pcB + 1 ≤ B.length + 1
        omega
      · show (B[s.pcB - 1]?.getD id) s.buf = applyActs B (s.pcB + 1 - 1) (seqFull A b0)
        rw [hbuf, show s.pcB + 1 - 1 = (s.pcB - 1) + 1 from by omega,
          applyActs_succ B (s.pcB - 1) (seqFull A b0) (by omega)]
    · have hpc : s.pcB = B.length + 1 := by omega
      rw [cstepB_unlock B s hpc hl]
      right; right; right; right; right; right; right; left
      refine ⟨?_, ?_, rfl, ?_⟩
      · exact ha
      · show s.pcB + 1 = B.length + 2
        omega
      · show s.buf = seqFull B (seqFull A b0)
        rw [hbuf, hpc, show B.length + 1 - 1 = B.length from by omega, applyActs_len]
  · rw [cstepB_done B s (by omega)]
    right; right; right; right; right; right; left
    exact ⟨hb, h1, h2, hl, hbuf⟩
  · rw [cstepB_done B s (by omega)]
    right; right; right; right; right; right; right; left
    exact ⟨ha, hb, hl, hbuf⟩
  · rw [cstepB_done B s (by omega)]
    right; right; right; right; right; right; right; right
    exact ⟨ha, hb, hl, hbuf⟩

/-- The reachability invariant is preserved by any scheduler step. -/
theorem inv_cstep (A B : List (Buf → Buf)) (b0 : Buf) (t : Bool) (s : CState)
    (h : Inv A B b0 s) : Inv A B b0 (cstep A B t s) := by
  cases t
  · exact inv_cstepA A B b0 s h
  · exact inv_cstepB A B b0 s h

/-- The reachability invariant holds after any schedule from any state
satisfying it. -/
theorem inv_crun (A B : List (Buf → Buf)) (b0 : Buf) (sch : List Bool) (s : CState)
    (h : Inv A B b0 s) : Inv A B b0 (crun A B sch s) := by
  induction sch generalizing s with
  | nil => exact h
  | cons t ts ih => exact ih (cstep A B t s) (inv_cstep A B b0 t s h)

/-- Mutual exclusion: the invariant rules out both threads being inside
the mutex-guarded region at the same time. -/
theorem inv_excl (A B : List (Buf → Buf)) (b0 : Buf) (s : CState)
    (h : Inv A B b0 s) :
    ¬ (inCS A.length s.pcA ∧ inCS B.length s.pcB) := by
  rintro ⟨⟨ha1, ha2⟩, hb1, hb2⟩
  rcases h with ⟨ha, hb, -, -⟩ | ⟨-, -, hb, -, -⟩ | ⟨-, -, ha, -, -⟩
    | ⟨ha, hb, -, -⟩ | ⟨hb, ha, -, -⟩ | ⟨ha, -, -, -, -⟩
    | ⟨hb, -, -, -, -⟩ | ⟨ha, hb, -, -⟩ | ⟨ha, hb, -, -⟩
  all_goals omega

/-- When both threads have completed, the invariant forces the buffer into
one of the two sequential outcomes. -/
theorem inv_done (A B : List (Buf → Buf)) (b0 : Buf) (s : CState)
    (h : Inv A B b0 s)
    (hA : s.pcA = A.length + 2) (hB : s.pcB = B.length + 2) :
    s.buf = seqFull B (seqFull A b0) ∨ s.buf = seqFull A (seqFull B b0) := by
  rcases h with ⟨ha, hb, -, -⟩ | ⟨h1, h2, hb, -, -⟩ | ⟨h1, h2, ha, -, -⟩
    | ⟨ha, hb, -, -⟩ | ⟨hb, ha, -, -⟩ | ⟨ha, h1, h2, -, -⟩
    | ⟨hb, h1, h2, -, -⟩ | ⟨ha, hb, -, hbuf⟩ | ⟨ha, hb, -, hbuf⟩
  · omega
  · omega
  · omega
  · omega
  · omega
  · omega
  · omega
  · exact Or.inl hbuf
  · exact Or.inr hbuf

/-- Folding the memcpy byte stores of a write body copies the first m
payload bytes and leaves everything else unchanged. -/
theorem foldl_copyActs (p : Nat → Nat) (m : Nat) (b : Buf) :
    ((List.range m).map (copyAct p)).foldl (fun x f => f x) b
      = { data := fun i => if i < m then p i else b.data i, len := b.len } := by
  induction m generalizing b with
  | zero =>
      cases b with
      | mk d l => simp
  | succ m ih =>
      rw [List.range_succ, List.map_append, List.foldl_append, ih]
      show copyAct p m { data := fun i => if i < m then p i else b.data i, len := b.len }
            = { data := fun i => if i < m + 1 then p i else b.data i, len := b.len }
      unfold copyAct
      congr 1
      funext j
      rcases Nat.lt_trichotomy j m with hj | hj | hj
      · have e1 : ¬ j = m := by omega
        have e2 : j < m + 1 := by omega
        simp [e1, hj, e2]
      · subst hj
        simp
      · have e1 : ¬ j = m := by omega
        have e2 : ¬ j < m := by omega
        have e3 : ¬ j < m + 1 := by omega
        simp [e1, e2, e3]

/-- Running a whole write body sequentially produces exactly the
dev_write buffer result. -/
theorem seqFull_writeActs (p : Nat → Nat) (n : Nat) (b : Buf) :
    seqFull (writeActs p n) b = writeResult p n b := by
  unfold seqFull writeActs
  rw [List.foldl_append, foldl_copyActs]
  rfl

/-- The buffer dev_write leaves is the result of its critical-section body
for the truncated length. -/
theorem bufOf_dev_write (p : Nat → Nat) (m : Nat) (s : DevState) :
    bufOf (dev_write p m s).1 = writeResult p (min m 31) (bufOf s) := by
  have hsz : (if m > 31 then 31 else m) = min m 31 := by split <;> omega
  show ({ data := fun i => if i = (if m > 31 then 31 else m) then 0
            else if i < (if m > 31 then 31 else m) then p i else s.data i,
          len := (if m > 31 then 31 else m) } : Buf) = _
  rw [hsz]
  rfl

/-- Claim C8: two concurrent dev_write calls, each executing its
mutex-guarded critical section one atomic store at a time, are strictly
serialized: under no schedule are both threads inside the critical section
together, and every schedule that completes both calls leaves the buffer
exactly as the two dev_write calls run sequentially in one order or the
other - never a byte-wise mix of the two payloads. -/
theorem concurrent_writes_serialize
    (pA pB : Nat → Nat) (szA szB : Nat) (b0 : Buf) (sch : List Bool) :
    ¬ (inCS (writeActs pA (min szA 31)).length
          (crun (writeActs pA (min szA 31)) (writeActs pB (min szB 31)) sch (initCState b0)).pcA
        ∧ inCS (writeActs pB (min szB 31)).length
          (crun (writeActs pA (min szA 31)) (writeActs pB (min szB 31)) sch (initCState b0)).pcB)
    ∧ ((crun (writeActs pA (min szA 31)) (writeActs pB (min szB 31)) sch (initCState b0)).pcA
          = (writeActs pA (min szA 31)).length + 2 →
       (crun (writeActs pA (min szA 31)) (writeActs pB (min szB 31)) sch (initCState b0)).pcB
          = (writeActs pB (min szB 31)).length + 2 →
       (crun (writeActs pA (min szA 31)) (writeActs pB (min szB 31)) sch (initCState b0)).buf
          = bufOf (dev_write pB szB (dev_write pA szA (devOf b0)).1).1
       ∨ (crun (writeActs pA (min szA 31)) (writeActs pB (min szB 31)) sch (initCState b0)).buf
          = bufOf (dev_write pA szA (dev_write pB szB (devOf b0)).1).1) := by
  have hinv := inv_crun (writeActs pA (min szA 31)) (writeActs pB (min szB 31)) b0 sch
      (initCState b0) (Or.inl ⟨rfl, rfl, rfl, rfl⟩)
  constructor
  · exact inv_excl _ _ _ _ hinv
  · intro hA hB
    have hd := inv_done _ _ _ _ hinv hA hB
    have e1 : bufOf (dev_write pB szB (dev_write pA szA (devOf b0)).1).1
        = seqFull (writeActs pB (min szB 31)) (seqFull (writeActs pA (min szA 31)) b0) := by
      rw [seqFull_writeActs, seqFull_writeActs, bufOf_dev_write, bufOf_dev_write]
      rfl
    have e2 : bufOf (dev_write pA szA (dev_write pB szB (devOf b0)).1).1
        = seqFull (writeActs pA (min szA 31)) (seqFull (writeActs pB (min szB 31)) b0) := by
      rw [seqFull_writeActs, seqFull_writeActs, bufOf_dev_write, bufOf_dev_write]
      rfl
    rcases hd with hcase | hcase
    · exact Or.inl (hcase.trans e1.symm)
    · exact Or.inr (hcase.trans e2.symm)

/-- Witness for C8: the schedule that runs thread A (payload byte 1,
length 1) to completion and then thread B (payload byte 2, length 2) to
completion completes both threads, and the serialization conclusion holds
for it. -/
theorem concurrent_writes_serialize_w :
    ((crun (writeActs (fun _ => 1) (min 1 31)) (writeActs (fun _ => 2) (min 2 31))
        [false, false, false, false, false, true, true, true, true, true, true]
        (initCState { data := fun _ => 0, len := 0 })).pcA
      = (writeActs (fun _ => 1) (min 1 31)).length + 2)
    ∧ ((crun (writeActs (fun _ => 1) (min 1 31)) (writeActs (fun _ => 2) (min 2 31))
        [false, false, false, false, false, true, true, true, true, true, true]
        (initCState { data := fun _ => 0, len := 0 })).pcB
      = (writeActs (fun _ => 2) (min 2 31)).length + 2)
    ∧ ((crun (writeActs (fun _ => 1) (min 1 31)) (writeActs (fun _ => 2) (min 2 31))
        [false, false, false, false, false, true, true, true, true, true, true]
        (initCState { data := fun _ => 0, len := 0 })).buf
        = bufOf (dev_write (fun _ => 2) 2
            (dev_write (fun _ => 1) 1 (devOf { data := fun _ => 0, len := 0 })).1).1
      ∨ (crun (writeActs (fun _ => 1) (min 1 31)) (writeActs (fun _ => 2) (min 2 31))
        [false, false, false, false, false, true, true, true, true, true, true]
        (initCState { data := fun _ => 0, len := 0 })).buf
        = bufOf (dev_write (fun _ => 1) 1
            (dev_write (fun _ => 2) 2 (devOf { data := fun _ => 0, len := 0 })).1).1) := by
  have h1 : (crun (writeActs (fun _ => 1) (min 1 31)) (writeActs (fun _ => 2) (min 2 31))
        [false, false, false, false, false, true, true, true, true, true, true]
        (initCState { data := fun _ => 0, len := 0 })).pcA
      = (writeActs (fun _ => 1) (min 1 31)).length + 2 := by decide
  have h2 : (crun (writeActs (fun _ => 1) (min 1 31)) (writeActs (fun _ => 2) (min 2 31))
        [false, false, false, false, false, true, true, true, true, true, true]
        (initCState { data := fun _ => 0, len := 0 })).pcB
      = (writeActs (fun _ => 2) (min 2 31)).length + 2 := by decide
  exact ⟨h1, h2,
    (concurrent_writes_serialize (fun _ => 1) (fun _ => 2) 1 2
      { data := fun _ => 0, len := 0 }
      [false, false, false, false, false, true, true, true, true, true, true]).2 h1 h2⟩

end KernelComm
